import Mathlib

/-!
Verification of the shared-archive subsystem headers of openjdk/amber:
`src/hotspot/share/gc/z/zSafeDelete.inline.hpp` and
`src/hotspot/share/memory/metaspaceShared.hpp`.

The C++ code is shallowly embedded: stateful template code becomes explicit
state passing over Lean structures, machine integers become `Nat`/`Int` with
explicit reductions modulo `2 ^ 32` where a cast occurs, and fatal
`assert`/`guarantee` branches become `Option`, with `none` marking the
assertion-failure branch.
-/

namespace ZSafeDelete

/-- State of a `ZSafeDeleteImpl<T>` object: the `_enabled` counter and the
`_deferred` list of items (items are modelled as natural-number ids standing
for the `ItemT*` pointers).  The counter is modelled as `Int` so that the
question whether it can go negative is expressible. -/
structure State where
  enabled : Int
  deferred : List Nat
deriving Repr, DecidableEq

/-- Constructor `ZSafeDeleteImpl(ZLock* lock)`: `_enabled(0), _deferred()`. -/
def init : State := { enabled := 0, deferred := [] }

/-- Method `deferred_delete(ItemT* item)`: under the lock, if `_enabled > 0`
append the item to `_deferred` and return true, else return false.  The
result pairs the C++ return value with the post state. -/
def deferred_delete (s : State) (item : Nat) : Bool × State :=
  if s.enabled > 0 then
    (true, { s with deferred := s.deferred ++ [item] })
  else
    (false, s)

/-- Method `enable_deferred_delete()`: under the lock, `_enabled++`. -/
def enable_deferred_delete (s : State) : State :=
  { s with enabled := s.enabled + 1 }

/-- Method `disable_deferred_delete()`: asserts `_enabled > 0` (modelled as
`none` when the assertion fails), then decrements `_enabled`; when the
decrement reaches zero it swaps `_deferred` into a local array and
immediately deletes every item in it.  The result pairs the post state with
the list of items deleted (in order) by this call. -/
def disable_deferred_delete (s : State) : Option (State × List Nat) :=
  if s.enabled > 0 then
    if s.enabled - 1 = 0 then
      some ({ enabled := 0, deferred := [] }, s.deferred)
    else
      some ({ s with enabled := s.enabled - 1 }, [])
  else
    none

/-- Method `operator()(ItemT* item)`: `if (!deferred_delete(item))
immediate_delete(item);`.  The result pairs the post state with the list of
items deleted immediately by this call. -/
def callOp (s : State) (item : Nat) : State × List Nat :=
  let r := deferred_delete s item
  if r.fst then (r.snd, []) else (r.snd, [item])

/-- One operation of the public interface of `ZSafeDeleteImpl<T>`. -/
inductive Op where
  | enable : Op
  | disable : Op
  | del : Nat → Op
deriving Repr, DecidableEq

/-- One step of the state machine; `none` when an assertion fires. -/
def step (s : State) : Op → Option State
  | Op.enable => some (enable_deferred_delete s)
  | Op.disable => (disable_deferred_delete s).map Prod.fst
  | Op.del i => some (callOp s i).fst

/-- Run a sequence of operations from a state; `none` when any step fires an
assertion. -/
def run (s : State) : List Op → Option State
  | [] => some s
  | op :: ops =>
    match step s op with
    | none => none
    | some s2 => run s2 ops

/-- Number of `enable` operations in a trace. -/
def countEnable : List Op → Nat
  | [] => 0
  | Op.enable :: ops => countEnable ops + 1
  | _ :: ops => countEnable ops

/-- Number of `disable` operations in a trace. -/
def countDisable : List Op → Nat
  | [] => 0
  | Op.disable :: ops => countDisable ops + 1
  | _ :: ops => countDisable ops

/-- Balanced usage relative to a starting count `e`: in every prefix of the
trace, the disables never outnumber `e` plus the enables. -/
def BalancedFrom (e : Int) (ops : List Op) : Prop :=
  ∀ n : Nat, (countDisable (ops.take n) : Int) ≤ e + (countEnable (ops.take n) : Int)

theorem countEnable_cons (op : Op) (ops : List Op) :
    countEnable (op :: ops) =
      countEnable ops + (if op = Op.enable then 1 else 0) := by
  cases op <;> simp [countEnable]

theorem countDisable_cons (op : Op) (ops : List Op) :
    countDisable (op :: ops) =
      countDisable ops + (if op = Op.disable then 1 else 0) := by
  cases op <;> simp [countDisable]

/-- Core lemma for balanced traces: starting from any state whose counter is
`e ≥ 0`, a trace balanced relative to `e` runs with no assertion failure and
ends with counter `e + enables − disables`. -/
theorem run_balanced (ops : List Op) :
    ∀ s : State, 0 ≤ s.enabled → BalancedFrom s.enabled ops →
      ∃ s' : State, run s ops = some s' ∧
        s'.enabled = s.enabled + countEnable ops - countDisable ops := by
  induction ops with
  | nil =>
    intro s h0 _
    exact ⟨s, rfl, by simp [countEnable, countDisable]⟩
  | cons op ops ih =>
    intro s h0 hbal
    cases op with
    | enable =>
      have hb2 : BalancedFrom (enable_deferred_delete s).enabled ops := by
        intro n
        have := hbal (n + 1)
        simpa [List.take_succ_cons, countEnable_cons, countDisable_cons,
          enable_deferred_delete, add_assoc, add_comm, add_left_comm] using this
      obtain ⟨s', hrun, hcnt⟩ := ih (enable_deferred_delete s)
        (by simp [enable_deferred_delete]; omega) hb2
      refine ⟨s', ?_, ?_⟩
      · simp [run, step, hrun]
      · simp [enable_deferred_delete] at hcnt
        simp [countEnable_cons, countDisable_cons]
        omega
    | disable =>
      have hpos : 0 < s.enabled := by
        have := hbal 1
        simp [List.take_succ_cons, countEnable_cons, countDisable_cons,
          countEnable, countDisable] at this
        omega
      have hstep : ∃ s2 : State, step s Op.disable = some s2 ∧
          s2.enabled = s.enabled - 1 := by
        by_cases h1 : s.enabled - 1 = 0
        · exact ⟨{ enabled := 0, deferred := [] }, by
            simp [step, disable_deferred_delete, hpos, h1], by simp [h1]⟩
        · exact ⟨{ s with enabled := s.enabled - 1 }, by
            simp [step, disable_deferred_delete, hpos, h1], rfl⟩
      obtain ⟨s2, hs2, he2⟩ := hstep
      have hb2 : BalancedFrom s2.enabled ops := by
        intro n
        have := hbal (n + 1)
        simp [List.take_succ_cons, countEnable_cons, countDisable_cons] at this
        rw [he2]
        omega
      obtain ⟨s', hrun, hcnt⟩ := ih s2 (by omega) hb2
      refine ⟨s', ?_, ?_⟩
      · simp only [run, hs2, hrun]
      · rw [hcnt, he2]
        simp [countEnable_cons, countDisable_cons]
        omega
    | del i =>
      have henb : ((callOp s i).fst).enabled = s.enabled := by
        by_cases h : s.enabled > 0 <;>
          simp [callOp, deferred_delete, h]
      have hb2 : BalancedFrom ((callOp s i).fst).enabled ops := by
        intro n
        have := hbal (n + 1)
        simp [List.take_succ_cons, countEnable_cons, countDisable_cons] at this
        rw [henb]
        omega
      obtain ⟨s', hrun, hcnt⟩ := ih (callOp s i).fst (by omega) hb2
      refine ⟨s', ?_, ?_⟩
      · simp [run, step, hrun]
      · rw [hcnt, henb]
        simp [countEnable_cons, countDisable_cons]

end ZSafeDelete

namespace ZSafeDelete

/-- Invariant of `ZSafeDeleteImpl`: the counter is non-negative, and when it
is zero the deferred list is empty. -/
def Inv (s : State) : Prop :=
  0 ≤ s.enabled ∧ (s.enabled = 0 → s.deferred = [])

theorem inv_init : Inv init := by
  constructor <;> simp [init]

theorem inv_step {s s' : State} {op : Op} (h : Inv s)
    (hs : step s op = some s') : Inv s' := by
  obtain ⟨h0, hd⟩ := h
  cases op with
  | enable =>
    simp [step, enable_deferred_delete] at hs
    subst hs
    constructor
    · simp; omega
    · intro h
      simp at h
      omega
  | disable =>
    simp [step, disable_deferred_delete] at hs
    by_cases hpos : 0 < s.enabled
    · by_cases h1 : s.enabled - 1 = 0
      · simp [hpos, h1] at hs
        subst hs
        constructor <;> simp
      · simp [hpos, h1] at hs
        subst hs
        constructor
        · simp; omega
        · intro h
          simp at h
          omega
    · simp [hpos] at hs
  | del i =>
    simp [step] at hs
    by_cases hpos : 0 < s.enabled
    · simp [callOp, deferred_delete, hpos] at hs
      subst hs
      constructor
      · exact h0
      · intro h
        simp at h
        omega
    · simp [callOp, deferred_delete, hpos] at hs
      subst hs
      exact ⟨h0, hd⟩

theorem inv_run {ops : List Op} :
    ∀ s s' : State, Inv s → run s ops = some s' → Inv s' := by
  induction ops with
  | nil =>
    intro s s' h hr
    simp [run] at hr
    subst hr
    exact h
  | cons op ops ih =>
    intro s s' h hr
    simp only [run] at hr
    cases hstep : step s op with
    | none => rw [hstep] at hr; exact absurd hr (by simp)
    | some s2 =>
      rw [hstep] at hr
      exact ih s2 s' (inv_step h hstep) hr

/-- Claim C1: an item passed to `operator()` is deferred (appended to the
deferred list, with `deferred_delete` returning true and nothing deleted)
exactly when `_enabled` is positive, and is deleted immediately otherwise;
`disable_deferred_delete` flushes and empties the deferred list exactly when
the decrement reaches zero, and deletes nothing when the counter stays
positive. -/
theorem zSafeDelete_defer_iff_enabled (s : State) (item : Nat) :
    (0 < s.enabled →
      callOp s item = ({ s with deferred := s.deferred ++ [item] }, []) ∧
      (deferred_delete s item).fst = true) ∧
    (s.enabled ≤ 0 →
      callOp s item = (s, [item]) ∧
      (deferred_delete s item).fst = false) ∧
    (s.enabled = 1 →
      disable_deferred_delete s = some ({ enabled := 0, deferred := [] }, s.deferred)) ∧
    (1 < s.enabled →
      disable_deferred_delete s = some ({ s with enabled := s.enabled - 1 }, [])) := by
  refine ⟨?_, ?_, ?_, ?_⟩
  · intro h
    simp [callOp, deferred_delete, h]
  · intro h
    have h2 : ¬ 0 < s.enabled := by omega
    simp [callOp, deferred_delete, h2]
  · intro h
    simp [disable_deferred_delete, h]
  · intro h
    have h1 : 0 < s.enabled := by omega
    have h2 : ¬ s.enabled - 1 = 0 := by omega
    simp [disable_deferred_delete, h1, h2]

/-- Witness for C1 at the concrete state with counter 1 and a pending
item 4: deleting item 7 defers it, and a disable then flushes both. -/
theorem zSafeDelete_defer_iff_enabled_witness :
    callOp { enabled := 1, deferred := [4] } 7 =
      ({ enabled := 1, deferred := [4, 7] }, []) ∧
    disable_deferred_delete { enabled := 1, deferred := [4] } =
      some ({ enabled := 0, deferred := [] }, [4]) := by
  refine ⟨?_, ?_⟩
  · exact ((zSafeDelete_defer_iff_enabled { enabled := 1, deferred := [4] } 7).1
      (by decide)).1
  · exact (zSafeDelete_defer_iff_enabled { enabled := 1, deferred := [4] } 7).2.2.1
      (by decide)

/-- Claim C8: `disable_deferred_delete` requires a positive counter (it is
the assertion-failure branch, `none`, exactly when the counter is not
positive), and under balanced enable/disable usage from a fresh object the
whole trace runs with no assertion failure and the counter never goes
negative. -/
theorem zSafeDelete_disable_precondition (s : State) (ops : List Op) :
    (disable_deferred_delete s = none ↔ ¬ 0 < s.enabled) ∧
    (BalancedFrom 0 ops →
      ∃ s' : State, run init ops = some s' ∧ 0 ≤ s'.enabled) := by
  constructor
  · constructor
    · intro h hpos
      by_cases h1 : s.enabled - 1 = 0 <;> simp [disable_deferred_delete, hpos, h1] at h
    · intro h
      simp [disable_deferred_delete, h]
  · intro hbal
    obtain ⟨s', hrun, hcnt⟩ := run_balanced ops init (by simp [init])
      (by simpa [init] using hbal)
    refine ⟨s', hrun, ?_⟩
    have := hbal ops.length
    simp [init] at hcnt
    simp [List.take_length] at this
    omega

/-- Witness for C8: on the balanced trace enable, delete 3, disable, the run
succeeds and ends with a non-negative counter. -/
theorem zSafeDelete_disable_precondition_witness :
    ∃ s' : State, run init [Op.enable, Op.del 3, Op.disable] = some s' ∧
      0 ≤ s'.enabled :=
  (zSafeDelete_disable_precondition init [Op.enable, Op.del 3, Op.disable]).2
    (by intro n; match n with
        | 0 => decide
        | 1 => decide
        | 2 => decide
        | (m + 3) =>
          norm_num [List.take_succ_cons, List.take_nil, countEnable, countDisable])

/-- Claim C9: in every state reachable from a fresh `ZSafeDeleteImpl` by its
operations, a zero counter forces an empty deferred list, so no deferred item
outlives the last outstanding enable. -/
theorem zSafeDelete_zero_counter_empty_list (ops : List Op) (s' : State)
    (hrun : run init ops = some s') (hzero : s'.enabled = 0) :
    s'.deferred = [] :=
  (inv_run init s' inv_init hrun).2 hzero

/-- Witness for C9 on the trace enable, delete 3, disable: the final state
has counter zero and indeed an empty deferred list. -/
theorem zSafeDelete_zero_counter_empty_list_witness :
    ∃ s' : State, run init [Op.enable, Op.del 3, Op.disable] = some s' ∧
      s'.deferred = [] := by
  refine ⟨{ enabled := 0, deferred := [] }, by decide, ?_⟩
  exact zSafeDelete_zero_counter_empty_list [Op.enable, Op.del 3, Op.disable]
    { enabled := 0, deferred := [] } (by decide) (by decide)

end ZSafeDelete

namespace MetaspaceShared

/-- Macro `MAX_SHARED_DELTA` from metaspaceShared.hpp. -/
def MAX_SHARED_DELTA : Nat := 0x7FFFFFFF

/-- Region-index enum of class `MetaspaceShared`: `mc = 0`. -/
def mc : Nat := 0

/-- Region-index enum: `rw = 1`. -/
def rw : Nat := 1

/-- Region-index enum: `ro = 2`. -/
def ro : Nat := 2

/-- Region-index enum: `bm = 3`. -/
def bm : Nat := 3

/-- Enum constant `num_core_region = 3`. -/
def num_core_region : Nat := 3

/-- Enum constant `num_non_heap_spaces = 4`. -/
def num_non_heap_spaces : Nat := 4

/-- Enum constant `first_closed_archive_heap_region = bm + 1`. -/
def first_closed_archive_heap_region : Nat := bm + 1

/-- Enum constant `max_closed_archive_heap_region = 2`. -/
def max_closed_archive_heap_region : Nat := 2

/-- Enum constant `last_closed_archive_heap_region`. -/
def last_closed_archive_heap_region : Nat :=
  first_closed_archive_heap_region + max_closed_archive_heap_region - 1

/-- Enum constant `first_open_archive_heap_region`. -/
def first_open_archive_heap_region : Nat := last_closed_archive_heap_region + 1

/-- Enum constant `max_open_archive_heap_region = 2`. -/
def max_open_archive_heap_region : Nat := 2

/-- Enum constant `last_open_archive_heap_region`. -/
def last_open_archive_heap_region : Nat :=
  first_open_archive_heap_region + max_open_archive_heap_region - 1

/-- Enum constant `last_valid_region`. -/
def last_valid_region : Nat := last_open_archive_heap_region

/-- Enum constant `n_regions = last_valid_region + 1`. -/
def n_regions : Nat := last_valid_region + 1

/-- Method `object_delta_u4(void* obj)`: takes the delta of the object from
`SharedBaseAddress` (the result of `object_delta_uintx`, passed here as the
argument), `guarantee`s it is at most `MAX_SHARED_DELTA` (modelled as `none`
on failure), and casts it to the 32-bit type `u4` (reduction modulo
`2 ^ 32`). -/
def object_delta_u4 (deltax : Nat) : Option Nat :=
  if deltax ≤ MAX_SHARED_DELTA then some (deltax % 2 ^ 32) else none

/-- A reserved address range, with the fields `ReservedSpace` exposes to
this header: a base address and a byte size. -/
structure ReservedSpace where
  base : Nat
  size : Nat
deriving Repr, DecidableEq

/-- Modelled from the spec: `ReservedSpace::contains(ptr)` (the class lives
in memory/virtualspace.hpp, outside the sampled sources) — membership of an
address in the contiguous reserved range. -/
def ReservedSpace.contains (rs : ReservedSpace) (p : Nat) : Bool :=
  decide (rs.base ≤ p ∧ p < rs.base + rs.size)

/-- Method `is_in_output_space(void* ptr)`: asserts `DumpSharedSpaces`
(modelled as `none` when the assertion fails), then returns
`shared_rs()->contains(ptr)` for the dump-time reserved space. -/
def is_in_output_space (dumpSharedSpaces : Bool) (shared_rs : ReservedSpace)
    (ptr : Nat) : Option Bool :=
  if dumpSharedSpaces then some (shared_rs.contains ptr) else none

/-- Enum `MapArchiveResult` from metaspaceShared.hpp. -/
inductive MapArchiveResult where
  | MAP_ARCHIVE_SUCCESS : MapArchiveResult
  | MAP_ARCHIVE_MMAP_FAILURE : MapArchiveResult
  | MAP_ARCHIVE_OTHER_FAILURE : MapArchiveResult
deriving Repr, DecidableEq

/-- Environment a mapping attempt runs against: the outcomes the OS and the
archive-file collaborator can produce. -/
structure ArchiveEnv where
  headerOk : Bool
  requestedAddrFree : Bool
  someAddrFree : Bool
  mmapOk : Bool
deriving Repr, DecidableEq

/-- Modelled from the spec: the body of `MetaspaceShared::map_archives`
(only declared in the sampled header) — validate the archive
(header/checksum), reserve at the requested or an arbitrary base, map the
regions, and report `SUCCESS`, `MMAP_FAILURE` or `OTHER_FAILURE`. -/
def map_archives (env : ArchiveEnv) (use_requested_addr : Bool) :
    MapArchiveResult :=
  if !env.headerOk then MapArchiveResult.MAP_ARCHIVE_OTHER_FAILURE
  else if use_requested_addr && !env.requestedAddrFree then
    MapArchiveResult.MAP_ARCHIVE_MMAP_FAILURE
  else if !use_requested_addr && !env.someAddrFree then
    MapArchiveResult.MAP_ARCHIVE_MMAP_FAILURE
  else if !env.mmapOk then MapArchiveResult.MAP_ARCHIVE_MMAP_FAILURE
  else MapArchiveResult.MAP_ARCHIVE_SUCCESS

/-- The two compatibility gate flags `_use_optimized_module_handling` and
`_use_full_module_graph`. -/
structure GateFlags where
  use_optimized_module_handling : Bool
  use_full_module_graph : Bool
deriving Repr, DecidableEq

/-- Modelled from the spec: both flags start enabled (their initializers
live in metaspaceShared.cpp, outside the sampled sources). -/
def initFlags : GateFlags :=
  { use_optimized_module_handling := true, use_full_module_graph := true }

/-- Method `disable_optimized_module_handling()`:
`_use_optimized_module_handling = false`. -/
def disable_optimized_module_handling (s : GateFlags) : GateFlags :=
  { s with use_optimized_module_handling := false }

/-- Method `disable_full_module_graph()`: `_use_full_module_graph = false`. -/
def disable_full_module_graph (s : GateFlags) : GateFlags :=
  { s with use_full_module_graph := false }

/-- The operations the header exposes on the gate flags: the two one-way
disables and the two read-only queries. -/
inductive GateOp where
  | disableOpt : GateOp
  | disableFull : GateOp
  | queryOpt : GateOp
  | queryFull : GateOp
deriving Repr, DecidableEq

/-- Effect of one gate operation on the flags (queries leave them
unchanged). -/
def gateStep (s : GateFlags) : GateOp → GateFlags
  | GateOp.disableOpt => disable_optimized_module_handling s
  | GateOp.disableFull => disable_full_module_graph s
  | GateOp.queryOpt => s
  | GateOp.queryFull => s

/-- Run a sequence of gate operations. -/
def gateRun (s : GateFlags) : List GateOp → GateFlags
  | [] => s
  | op :: ops => gateRun (gateStep s op) ops


/-- Modelled from the spec: the state touched by
`remap_shared_readonly_as_readwrite` (its CDS body lives in
metaspaceShared.cpp, outside the sampled sources) — whether sharing is
enabled, the one-way `_remapped_readwrite` flag, and whether the read-only
region currently has read-write permission. -/
structure RemapState where
  sharingEnabled : Bool
  remappedReadwrite : Bool
  roWritable : Bool
deriving Repr, DecidableEq

/-- Modelled from the spec: `remap_shared_readonly_as_readwrite()` — returns
true immediately if sharing is not enabled or a prior call already remapped;
otherwise asks the OS to remap the read-only region read-write (`osRemapOk`
is the OS outcome), setting the flag and relaxing the permission on
success. -/
def remap_shared_readonly_as_readwrite (osRemapOk : Bool) (s : RemapState) :
    Bool × RemapState :=
  if !s.sharingEnabled then (true, s)
  else if s.remappedReadwrite then (true, s)
  else if osRemapOk then
    (true, { s with remappedReadwrite := true, roWritable := true })
  else (false, s)

/-- Process-wide shared-archive state read by the post-load query surface:
the shared-metaspace range, per-region ranges, `_relocation_delta` and
`_requested_base_address`. -/
structure SharedState where
  shared_metaspace_base : Nat
  shared_metaspace_top : Nat
  region_base : Nat → Nat
  region_top : Nat → Nat
  reloc_delta : Int
  req_base_address : Nat

/-- Method `is_in_shared_metaspace(const void* p)`.  Modelled from the spec
for the range test (`MetaspaceObj::is_shared` lives outside the sampled
sources): membership of the address in the shared-metaspace range.  The
result pairs the answer with the post state, to express that the call does
not write the state. -/
def is_in_shared_metaspace (s : SharedState) (p : Nat) : Bool × SharedState :=
  (decide (s.shared_metaspace_base ≤ p ∧ p < s.shared_metaspace_top), s)

/-- Method `is_in_shared_region(const void* p, int idx)`.  Modelled from the
spec (only declared in the sampled header): membership of the address in
region `idx`. -/
def is_in_shared_region (s : SharedState) (p : Nat) (idx : Nat) :
    Bool × SharedState :=
  (decide (s.region_base idx ≤ p ∧ p < s.region_top idx), s)

/-- Method `relocation_delta()`: `return _relocation_delta;`. -/
def relocation_delta (s : SharedState) : Int × SharedState :=
  (s.reloc_delta, s)

/-- Method `requested_base_address()`: `return _requested_base_address;`. -/
def requested_base_address (s : SharedState) : Nat × SharedState :=
  (s.req_base_address, s)

theorem gateRun_opt_false :
    ∀ (ops : List GateOp) (s : GateFlags),
      s.use_optimized_module_handling = false →
      (gateRun s ops).use_optimized_module_handling = false := by
  intro ops
  induction ops with
  | nil => intro s h; exact h
  | cons op ops ih =>
    intro s h
    apply ih
    cases op <;>
      simp [gateStep, disable_optimized_module_handling,
        disable_full_module_graph, h]

theorem gateRun_full_false :
    ∀ (ops : List GateOp) (s : GateFlags),
      s.use_full_module_graph = false →
      (gateRun s ops).use_full_module_graph = false := by
  intro ops
  induction ops with
  | nil => intro s h; exact h
  | cons op ops ih =>
    intro s h
    apply ih
    cases op <;>
      simp [gateStep, disable_optimized_module_handling,
        disable_full_module_graph, h]

/-- Claim C2: the region catalogue is the fixed order `mc, rw, ro, bm`, then
the closed heap regions (at most two, indices 4 and 5), then the open heap
regions (at most two, indices 6 and 7), for exactly 8 region indices, all
given by compile-time enum constants. -/
theorem region_catalogue_order :
    mc = 0 ∧ rw = 1 ∧ ro = 2 ∧ bm = 3 ∧
    first_closed_archive_heap_region = bm + 1 ∧
    first_closed_archive_heap_region = 4 ∧
    max_closed_archive_heap_region = 2 ∧
    last_closed_archive_heap_region = 5 ∧
    first_open_archive_heap_region = last_closed_archive_heap_region + 1 ∧
    first_open_archive_heap_region = 6 ∧
    max_open_archive_heap_region = 2 ∧
    last_open_archive_heap_region = 7 ∧
    last_valid_region = 7 ∧
    n_regions = 8 := by
  decide

/-- Claim C3: for a delta at most `MAX_SHARED_DELTA` the function
`object_delta_u4` returns exactly that delta (the 32-bit cast does not
truncate it), and for a larger delta the `guarantee` fails fatally instead
of returning a value. -/
theorem object_delta_u4_exact (d : Nat) :
    (d ≤ MAX_SHARED_DELTA → object_delta_u4 d = some d) ∧
    (MAX_SHARED_DELTA < d → object_delta_u4 d = none) := by
  constructor
  · intro h
    have hb : d ≤ 0x7FFFFFFF := h
    simp only [object_delta_u4, MAX_SHARED_DELTA, hb, if_pos]
    have : d % 2 ^ 32 = d := Nat.mod_eq_of_lt (by omega)
    rw [this]
  · intro h
    simp [object_delta_u4]
    omega

/-- Witness for C3: delta 5 is returned exactly, and a delta one past the
bound is rejected fatally. -/
theorem object_delta_u4_exact_witness :
    object_delta_u4 5 = some 5 ∧ object_delta_u4 0x80000000 = none :=
  ⟨(object_delta_u4_exact 5).1 (by norm_num [MAX_SHARED_DELTA]),
   (object_delta_u4_exact 0x80000000).2 (by norm_num [MAX_SHARED_DELTA])⟩

/-- Claim C4: every invocation of `map_archives` yields exactly one of the
three values of `MapArchiveResult`. -/
theorem map_archives_trichotomy (env : ArchiveEnv) (use_requested_addr : Bool) :
    map_archives env use_requested_addr = MapArchiveResult.MAP_ARCHIVE_SUCCESS ∨
    map_archives env use_requested_addr = MapArchiveResult.MAP_ARCHIVE_MMAP_FAILURE ∨
    map_archives env use_requested_addr = MapArchiveResult.MAP_ARCHIVE_OTHER_FAILURE := by
  cases h : map_archives env use_requested_addr
  · exact Or.inl rfl
  · exact Or.inr (Or.inl rfl)
  · exact Or.inr (Or.inr rfl)

/-- Claim C5: both gate flags start enabled; every operation either leaves a
flag unchanged or sets it to false; and along any sequence of operations a
flag that is false stays false. -/
theorem gate_flags_monotone (s : GateFlags) (op : GateOp) (ops : List GateOp) :
    (initFlags.use_optimized_module_handling = true ∧
      initFlags.use_full_module_graph = true) ∧
    ((gateStep s op).use_optimized_module_handling =
        s.use_optimized_module_handling ∨
      (gateStep s op).use_optimized_module_handling = false) ∧
    ((gateStep s op).use_full_module_graph = s.use_full_module_graph ∨
      (gateStep s op).use_full_module_graph = false) ∧
    (s.use_optimized_module_handling = false →
      (gateRun s ops).use_optimized_module_handling = false) ∧
    (s.use_full_module_graph = false →
      (gateRun s ops).use_full_module_graph = false) := by
  refine ⟨⟨rfl, rfl⟩, ?_, ?_, gateRun_opt_false ops s, gateRun_full_false ops s⟩
  · cases op <;>
      simp [gateStep, disable_optimized_module_handling,
        disable_full_module_graph]
  · cases op <;>
      simp [gateStep, disable_optimized_module_handling,
        disable_full_module_graph]

/-- Witness for C5: from a state with the optimized-module flag already
false, running a disable of the other flag and two queries leaves it
false. -/
theorem gate_flags_monotone_witness :
    (gateRun { use_optimized_module_handling := false,
               use_full_module_graph := true }
      [GateOp.disableFull, GateOp.queryOpt,
       GateOp.queryFull]).use_optimized_module_handling = false :=
  (gate_flags_monotone
    { use_optimized_module_handling := false, use_full_module_graph := true }
    GateOp.queryOpt
    [GateOp.disableFull, GateOp.queryOpt, GateOp.queryFull]).2.2.2.1 rfl

/-- Claim C6: `remap_shared_readonly_as_readwrite` returns true and changes
nothing once the flag is set or when sharing is not enabled; after any call
that returns true, every subsequent call is a no-op returning true; and the
read-only region's permission only ever moves from read-only to read-write,
never back. -/
theorem remap_readonly_idempotent (ok ok2 : Bool) (s : RemapState) :
    (s.remappedReadwrite = true →
      remap_shared_readonly_as_readwrite ok s = (true, s)) ∧
    (s.sharingEnabled = false →
      remap_shared_readonly_as_readwrite ok s = (true, s)) ∧
    ((remap_shared_readonly_as_readwrite ok s).fst = true →
      remap_shared_readonly_as_readwrite ok2
          (remap_shared_readonly_as_readwrite ok s).snd =
        (true, (remap_shared_readonly_as_readwrite ok s).snd)) ∧
    ((remap_shared_readonly_as_readwrite ok s).snd.roWritable =
        s.roWritable ∨
      (remap_shared_readonly_as_readwrite ok s).snd.roWritable = true) := by
  obtain ⟨se, rm, rwb⟩ := s
  cases se <;> cases rm <;> cases rwb <;> cases ok <;> cases ok2 <;> decide

/-- Witness for C6: with the flag already set, a call is a no-op that
returns true. -/
theorem remap_readonly_idempotent_witness :
    remap_shared_readonly_as_readwrite true
        { sharingEnabled := true, remappedReadwrite := true,
          roWritable := true } =
      (true, { sharingEnabled := true, remappedReadwrite := true,
               roWritable := true }) :=
  (remap_readonly_idempotent true true
    { sharingEnabled := true, remappedReadwrite := true,
      roWritable := true }).1 rfl

/-- Claim C7: the four post-load queries are pure reads: each returns the
state unchanged, and repeating a query on the state returned by a first call
gives the same answer. -/
theorem query_surface_pure (s : SharedState) (p : Nat) (idx : Nat) :
    (is_in_shared_metaspace s p).snd = s ∧
    (is_in_shared_region s p idx).snd = s ∧
    (relocation_delta s).snd = s ∧
    (requested_base_address s).snd = s ∧
    (is_in_shared_metaspace (is_in_shared_metaspace s p).snd p).fst =
      (is_in_shared_metaspace s p).fst ∧
    (is_in_shared_region (is_in_shared_region s p idx).snd p idx).fst =
      (is_in_shared_region s p idx).fst ∧
    (relocation_delta (relocation_delta s).snd).fst =
      (relocation_delta s).fst ∧
    (requested_base_address (requested_base_address s).snd).fst =
      (requested_base_address s).fst :=
  ⟨rfl, rfl, rfl, rfl, rfl, rfl, rfl, rfl⟩

/-- Claim C10: in dump mode `is_in_output_space` returns whether the pointer
lies in the dump-time shared reserved space, and outside dump mode its
assertion fails instead of returning a value. -/
theorem is_in_output_space_requires_dump (rs : ReservedSpace) (p : Nat) :
    is_in_output_space true rs p = some (rs.contains p) ∧
    is_in_output_space false rs p = none :=
  ⟨rfl, rfl⟩

end MetaspaceShared
